import Mathlib

/-!
# Crew Status Tracker — verification of the compliance computation engine

Shallow embedding of the pure computation core of the crew-status repository:

* `src/utils/calculations.ts` — flight/duty time aggregation, rolling-window
  pilot statistics and exceedance flags (`calculateFlightTime`,
  `calculateDutyTime`, `getEntriesInDateRange`, `calculatePilotStats`);
* `src/components/TechlogEntryForm.tsx` — the per-sector flight-time
  computation from two time-of-day strings (`calculateFlightTime`);
* `src/components/CrewStatusDashboard.tsx` — the daily duty grouper
  (`getPilotDailyDetails`) and the rest-period evaluator
  (`getPilotRestCompliance`).

Modelling conventions:

* JavaScript numbers are modelled as `ℚ`.  A computation that produces `NaN`
  in JavaScript (from an unparseable `Date`) is modelled as `none : Option ℚ`;
  `NaN` propagation through `+`, `-`, `Math.min`, `Math.max` is modelled by
  the `js*` combinators below, and `NaN >= c` / `NaN > c` is `false`, matching
  JavaScript comparison semantics.
* A time-of-day string is parsed by `jsTimeParse` to minutes since
  midnight, modelling `new Date("2000-01-01T" ++ s)`: it accepts the full
  time component of the ECMA-262 Date Time String Format — `"HH:MM"`,
  `"HH:MM:SS"`, `"HH:MM:SS."` followed by fraction digits (engines keep
  millisecond precision, i.e. the first three digits), and the end-of-day
  hour `24` when minutes/seconds/fraction are zero — and fails (JS: Invalid
  Date / `NaN`) otherwise.  `parseTimeOfDay` is the `"HH:MM"` subset of
  that domain (the only format `<input type="time">` produces); it is used
  for the parse *hypotheses* of theorems, and agrees with `jsTimeParse`
  wherever it succeeds (`jsTimeParse_of_parseTimeOfDay`).
* Calendar-date strings `"YYYY-MM-DD"` are modelled as a day index
  `date : Int`; the JS instant `new Date(dateString).getTime()` is modelled
  (in minutes rather than milliseconds, a uniform rescaling) by
  `date * 1440`, and `new Date(date ++ "T" ++ time)` by `date * 1440 + m`
  where `m` are the parsed minutes of `time`.  The implicit wall clock
  `new Date()` is modelled by an explicit `now : ℚ` parameter (in minutes).
-/

namespace CrewStatus

/-- Value of a decimal digit character. -/
def digitVal (c : Char) : ℕ := c.toNat - 48

/-- Parse a canonical `"HH:MM"` time-of-day string into minutes since
midnight (hour ≤ 23, minute ≤ 59).  This is the only format
`<input type="time">` produces and is the subset of the JS `Date` time
formats (`jsTimeParse` below) used in parse *hypotheses*; on this subset
the two parses agree (`jsTimeParse_of_parseTimeOfDay`). -/
def parseTimeOfDay (s : String) : Option ℚ :=
  match s.data with
  | [h1, h2, c, m1, m2] =>
    if c = ':' && h1.isDigit && h2.isDigit && m1.isDigit && m2.isDigit then
      if digitVal h1 * 10 + digitVal h2 ≤ 23 && digitVal m1 * 10 + digitVal m2 ≤ 59 then
        some (((digitVal h1 * 10 + digitVal h2) * 60 +
          (digitVal m1 * 10 + digitVal m2) : ℕ) : ℚ)
      else none
    else none
  | _ => none

/-- Milliseconds denoted by the fraction-of-second digits of a time string.
A JS time value is an integer count of milliseconds, so engines keep the
first three fraction digits (zero-padded on the right) and discard the
rest. -/
def fracDigitsMs (l : List Char) : ℚ :=
  match l with
  | [] => 0
  | [d1] => ((digitVal d1 * 100 : ℕ) : ℚ)
  | [d1, d2] => ((digitVal d1 * 100 + digitVal d2 * 10 : ℕ) : ℚ)
  | d1 :: d2 :: d3 :: _ =>
    ((digitVal d1 * 100 + digitVal d2 * 10 + digitVal d3 : ℕ) : ℚ)

/-- Range-check and evaluate a time from its components, in minutes, per the
ECMA-262 Date Time String Format: minute and second at most 59, and hour at
most 23 — or the end-of-day hour 24 with zero minutes, seconds and
fraction. -/
def mkTimeMinutes (hh mm ss : ℕ) (ms : ℚ) : Option ℚ :=
  if mm ≤ 59 ∧ ss ≤ 59 ∧ (hh ≤ 23 ∨ (hh = 24 ∧ mm = 0 ∧ ss = 0 ∧ ms = 0)) then
    some (((hh * 60 + mm : ℕ) : ℚ) + ((ss : ℕ) : ℚ) / 60 + ms / 60000)
  else none

/-- The time-of-day parse performed by `new Date("2000-01-01T" ++ s)`,
returning minutes since midnight.  Per the ECMA-262 Date Time String
Format it accepts `"HH:MM"`, `"HH:MM:SS"`, and `"HH:MM:SS."` followed by
at least one fraction digit (truncated to millisecond precision as engines
do), with hour 24 allowed only for the zero instant; anything else —
including the empty string — is an Invalid Date (`none`, JS `NaN`).
Strings outside this format are only parseable through engine-specific
legacy heuristics, which the program never relies on. -/
def jsTimeParse (s : String) : Option ℚ :=
  match s.data with
  | [h1, h2, c1, m1, m2] =>
    if c1 = ':' && h1.isDigit && h2.isDigit && m1.isDigit && m2.isDigit then
      mkTimeMinutes (digitVal h1 * 10 + digitVal h2)
        (digitVal m1 * 10 + digitVal m2) 0 0
    else none
  | [h1, h2, c1, m1, m2, c2, s1, s2] =>
    if c1 = ':' && c2 = ':' && h1.isDigit && h2.isDigit && m1.isDigit &&
        m2.isDigit && s1.isDigit && s2.isDigit then
      mkTimeMinutes (digitVal h1 * 10 + digitVal h2)
        (digitVal m1 * 10 + digitVal m2)
        (digitVal s1 * 10 + digitVal s2) 0
    else none
  | h1 :: h2 :: c1 :: m1 :: m2 :: c2 :: s1 :: s2 :: c3 :: fs =>
    if c1 = ':' && c2 = ':' && c3 = '.' && h1.isDigit && h2.isDigit &&
        m1.isDigit && m2.isDigit && s1.isDigit && s2.isDigit &&
        !fs.isEmpty && fs.all Char.isDigit then
      mkTimeMinutes (digitVal h1 * 10 + digitVal h2)
        (digitVal m1 * 10 + digitVal m2)
        (digitVal s1 * 10 + digitVal s2) (fracDigitsMs fs)
    else none
  | _ => none

/-- One flight leg, as stored by the techlog form (`src/types/index.ts`).
`flightTime` is the persisted duration in hours. -/
structure Sector where
  id : String
  departure : String
  arrival : String
  takeoffTime : String
  landingTime : String
  flightTime : ℚ
deriving DecidableEq

/-- One techlog submission (`src/types/index.ts`).  `date` is the day index
modelling the `"YYYY-MM-DD"` date string; `createdAt` an instant. -/
structure TechlogEntry where
  id : String
  techlogNumber : String
  date : Int
  aircraftRegistration : String
  pilotName : String
  coPilotName : Option String
  sectors : List Sector
  createdAt : ℚ
deriving DecidableEq

/-- `entry.pilotName === pilotName || entry.coPilotName === pilotName`: the
pilot filter used both by `calculatePilotStats` and by the dashboard.  A
missing (`undefined`) co-pilot never equals a pilot-name string. -/
def pilotMatches (pilotName : String) (e : TechlogEntry) : Bool :=
  e.pilotName == pilotName || e.coPilotName == some pilotName

/-- The instant `new Date(entry.date).getTime()` (midnight of the entry's
date), in minutes. -/
def dateValue (e : TechlogEntry) : ℚ := (e.date : ℚ) * 1440

/-- JavaScript `+` on numbers that may be `NaN` (`none`). -/
def jsAdd : Option ℚ → Option ℚ → Option ℚ
  | some a, some b => some (a + b)
  | _, _ => none

/-- JavaScript `x > l` where `x` may be `NaN`: `NaN > l` is `false`. -/
def jsGt (x : Option ℚ) (l : ℚ) : Bool :=
  match x with
  | some v => decide (l < v)
  | none => false

/-- JavaScript `x >= l` where `x` may be `NaN`: `NaN >= l` is `false`. -/
def jsGe (x : Option ℚ) (l : ℚ) : Bool :=
  match x with
  | some v => decide (l ≤ v)
  | none => false

/-- All-or-nothing sequencing: `some` of the list of values if every element
is `some`, otherwise `none`.  Models the fact that one `NaN` in the inputs of
`Math.min`/`Math.max` makes the result `NaN`. -/
def seqOption : List (Option ℚ) → Option (List ℚ)
  | [] => some []
  | none :: _ => none
  | some v :: tl => (seqOption tl).map (fun vs => v :: vs)

/-- `Math.min(...xs)` over a (in use, non-empty) list of numbers. -/
def listMin : List ℚ → ℚ
  | [] => 0
  | x :: tl => tl.foldl min x

/-- `Math.max(...xs)` over a (in use, non-empty) list of numbers. -/
def listMax : List ℚ → ℚ
  | [] => 0
  | x :: tl => tl.foldl max x

namespace Calculations

/- Regulatory flight-time limits (`FLIGHT_TIME_LIMITS` in
`src/utils/calculations.ts`). -/
namespace FLIGHT_TIME_LIMITS

def MAX_SECTORS_24H : ℕ := 10

def MAX_HOURS_7D : ℚ := 34

def MAX_HOURS_28D : ℚ := 100

def MAX_HOURS_365D : ℚ := 1000

end FLIGHT_TIME_LIMITS

/- Regulatory duty-time limits (`DUTY_TIME_LIMITS`). -/
namespace DUTY_TIME_LIMITS

def MAX_HOURS_7D : ℚ := 55

def MAX_HOURS_28D : ℚ := 190

def MAX_HOURS_365D : ℚ := 1800

end DUTY_TIME_LIMITS

/-- `calculateFlightTime` from `calculations.ts`: sum of the sectors' stored
flight times (`reduce((total, s) => total + s.flightTime, 0)`). -/
def calculateFlightTime (sectors : List Sector) : ℚ :=
  (sectors.map (fun s => s.flightTime)).sum

/-- `calculateDutyTime` from `calculations.ts`: for a non-empty sector list,
`max 0` of `(latest landing + 15 min) − (earliest takeoff + 45 min)` in
hours, all times-of-day parsed onto the single reference date `2000-01-01`;
`0` for an empty list.  If any time fails to parse the JS computation is
`NaN` throughout (`Math.min`/`Math.max`/`Math.max(0,·)` all propagate `NaN`),
modelled as `none`. -/
def calculateDutyTime (sectors : List Sector) : Option ℚ :=
  if sectors.isEmpty then some 0
  else
    match seqOption (sectors.map (fun s => jsTimeParse s.takeoffTime)),
        seqOption (sectors.map (fun s => jsTimeParse s.landingTime)) with
    | some ts, some ls =>
      some (max 0 (((listMax ls + 15) - (listMin ts + 45)) / 60))
    | _, _ => none

/-- `getEntriesInDateRange`: entries whose date instant lies in
`[startDate, endDate]`, both bounds inclusive. -/
def getEntriesInDateRange (entries : List TechlogEntry)
    (startDate endDate : ℚ) : List TechlogEntry :=
  entries.filter (fun e => decide (startDate ≤ dateValue e ∧ dateValue e ≤ endDate))

/-- Sector count over the trailing 24 hours (the local `sectors24Hours` of
`calculatePilotStats`). -/
def sectors24Hours (pilotName : String) (entries : List TechlogEntry)
    (now : ℚ) : ℕ :=
  ((getEntriesInDateRange (entries.filter (pilotMatches pilotName))
      (now - 1440) now).map (fun e => e.sectors.length)).sum

/-- The seven boolean exceedance flags of `PilotStats`. -/
structure Exceedances where
  flightTime7Days : Bool
  flightTime28Days : Bool
  flightTime365Days : Bool
  dutyTime7Days : Bool
  dutyTime28Days : Bool
  dutyTime365Days : Bool
  sectors24Hours : Bool
deriving DecidableEq

/-- Per-pilot rolling-window statistics (`PilotStats` in
`src/types/index.ts`).  Duty-time totals may be `NaN` (`none`) when a sector
time fails to parse. -/
structure PilotStats where
  pilotName : String
  flightTime7Days : ℚ
  flightTime28Days : ℚ
  flightTime365Days : ℚ
  dutyTime7Days : Option ℚ
  dutyTime28Days : Option ℚ
  dutyTime365Days : Option ℚ
  sectors7Days : ℕ
  sectors28Days : ℕ
  sectors365Days : ℕ
  exceedances : Exceedances
deriving DecidableEq

/-- `calculatePilotStats` from `calculations.ts`, with the implicit
`new Date()` made an explicit `now` (minutes).  The window starts are
`now − 7/28/365` days; sums model `reduce((t, e) => t + f(e), 0)`. -/
def calculatePilotStats (pilotName : String) (entries : List TechlogEntry)
    (now : ℚ) : PilotStats :=
  let sevenDaysAgo := now - 7 * 1440
  let twentyEightDaysAgo := now - 28 * 1440
  let threeSixtyFiveDaysAgo := now - 365 * 1440
  let pilotEntries := entries.filter (pilotMatches pilotName)
  let entries7Days := getEntriesInDateRange pilotEntries sevenDaysAgo now
  let entries28Days := getEntriesInDateRange pilotEntries twentyEightDaysAgo now
  let entries365Days := getEntriesInDateRange pilotEntries threeSixtyFiveDaysAgo now
  let flightTime7Days := ((entries7Days.map (fun e => calculateFlightTime e.sectors)).sum)
  let flightTime28Days := ((entries28Days.map (fun e => calculateFlightTime e.sectors)).sum)
  let flightTime365Days := ((entries365Days.map (fun e => calculateFlightTime e.sectors)).sum)
  let dutyTime7Days := (entries7Days.map (fun e => calculateDutyTime e.sectors)).foldl jsAdd (some 0)
  let dutyTime28Days := (entries28Days.map (fun e => calculateDutyTime e.sectors)).foldl jsAdd (some 0)
  let dutyTime365Days := (entries365Days.map (fun e => calculateDutyTime e.sectors)).foldl jsAdd (some 0)
  let sectors7Days := ((entries7Days.map (fun e => e.sectors.length)).sum)
  let sectors28Days := ((entries28Days.map (fun e => e.sectors.length)).sum)
  let sectors365Days := ((entries365Days.map (fun e => e.sectors.length)).sum)
  let s24 := sectors24Hours pilotName entries now
  { pilotName := pilotName
    flightTime7Days := flightTime7Days
    flightTime28Days := flightTime28Days
    flightTime365Days := flightTime365Days
    dutyTime7Days := dutyTime7Days
    dutyTime28Days := dutyTime28Days
    dutyTime365Days := dutyTime365Days
    sectors7Days := sectors7Days
    sectors28Days := sectors28Days
    sectors365Days := sectors365Days
    exceedances :=
      { flightTime7Days := decide (FLIGHT_TIME_LIMITS.MAX_HOURS_7D < flightTime7Days)
        flightTime28Days := decide (FLIGHT_TIME_LIMITS.MAX_HOURS_28D < flightTime28Days)
        flightTime365Days := decide (FLIGHT_TIME_LIMITS.MAX_HOURS_365D < flightTime365Days)
        dutyTime7Days := jsGt dutyTime7Days DUTY_TIME_LIMITS.MAX_HOURS_7D
        dutyTime28Days := jsGt dutyTime28Days DUTY_TIME_LIMITS.MAX_HOURS_28D
        dutyTime365Days := jsGt dutyTime365Days DUTY_TIME_LIMITS.MAX_HOURS_365D
        sectors24Hours := decide (FLIGHT_TIME_LIMITS.MAX_SECTORS_24H < s24) } }

end Calculations

namespace TechlogForm

/-- `calculateFlightTime` from `TechlogEntryForm.tsx`: duration in hours
between two time-of-day strings.  An empty (falsy) string short-circuits to
`0`; a non-empty unparseable string yields an Invalid Date, and the final
division produces `NaN` (`none` here).  If the landing instant is before the
takeoff instant, one day is added to the landing (`landing.setDate(+1)`). -/
def calculateFlightTime (takeoffTime landingTime : String) : Option ℚ :=
  if takeoffTime = "" ∨ landingTime = "" then some 0
  else
    match jsTimeParse takeoffTime, jsTimeParse landingTime with
    | some t, some l =>
      let l' := if l < t then l + 1440 else l
      some ((l' - t) / 60)
    | _, _ => none

end TechlogForm

namespace Dashboard

/-- One day of duty for one pilot, as built by `getPilotDailyDetails` in
`CrewStatusDashboard.tsx`. -/
structure DailyDay where
  date : Int
  entries : List TechlogEntry
  sectors : List Sector
  totalFlightTime : ℚ
  isOvernight : Bool
deriving DecidableEq

/-- First-occurrence deduplication of the date keys: the JS `reduce` builds
an object whose string keys (the dates) enumerate in insertion order, i.e.
in order of each date's first occurrence. -/
def dedupFirst : List Int → List Int
  | [] => []
  | d :: tl => d :: dedupFirst (tl.filter (fun x => x != d))
termination_by l => l.length
decreasing_by
  simp only [List.length_cons]
  exact Nat.lt_succ_of_le (List.length_filter_le _ tl)

/-- The per-date summary built for one group: all sectors of the group's
entries concatenated in entry order, their total flight time, and the
overnight flag `lastSector && lastSector.arrival !== 'HTDA'` (falsy, i.e.
`false`, when the day has no sectors). -/
def mkDailyDay (date : Int) (entries : List TechlogEntry) : DailyDay :=
  let allSectors := entries.flatMap (fun e => e.sectors)
  { date := date
    entries := entries
    sectors := allSectors
    totalFlightTime := (allSectors.map (fun s => s.flightTime)).sum
    isOvernight :=
      match allSectors.getLast? with
      | some lastSector => lastSector.arrival != "HTDA"
      | none => false }

/-- Insertion step of the descending-by-date sort
(`sort((a, b) => dateB − dateA)`). -/
def insertDesc (d : DailyDay) : List DailyDay → List DailyDay
  | [] => [d]
  | x :: tl => if x.date ≤ d.date then d :: x :: tl else x :: insertDesc d tl

/-- Sort a day list descending by date (most recent first). -/
def sortByDateDesc : List DailyDay → List DailyDay
  | [] => []
  | d :: tl => insertDesc d (sortByDateDesc tl)

/-- Insertion step of the ascending-by-date sort
(`sort((a, b) => dateA − dateB)`). -/
def insertAsc (d : DailyDay) : List DailyDay → List DailyDay
  | [] => [d]
  | x :: tl => if d.date ≤ x.date then d :: x :: tl else x :: insertAsc d tl

/-- Sort a day list ascending by date (chronological order), as done at the
start of `getPilotRestCompliance`. -/
def sortByDateAsc : List DailyDay → List DailyDay
  | [] => []
  | d :: tl => insertAsc d (sortByDateAsc tl)

/-- `getPilotDailyDetails`: filter the entries to those where the pilot is
primary or co-pilot, group them by date (one group per distinct date, in
first-occurrence order), build the per-date summary, and sort the result
descending by date. -/
def getPilotDailyDetails (pilotName : String)
    (entries : List TechlogEntry) : List DailyDay :=
  let pilotEntries := entries.filter (pilotMatches pilotName)
  sortByDateDesc
    ((dedupFirst (pilotEntries.map (fun e => e.date))).map
      (fun dt => mkDailyDay dt (pilotEntries.filter (fun e => e.date == dt))))

/-- One inter-duty rest period, as pushed onto `restPeriodDetails` in
`getPilotRestCompliance`.  `finish` models the field named `end` (a Lean
keyword); instants are in minutes; `none` models `NaN` from an unparseable
boundary time. -/
structure RestPeriod where
  start : Option ℚ
  finish : Option ℚ
  hours : Option ℚ
  isCompliant : Bool
  fromDate : Int
  toDate : Int
deriving DecidableEq

/-- The body of one loop iteration of `getPilotRestCompliance`: if both the
last sector of `currentDay` and the first sector of `nextDay` exist (JS
truthiness of the indexed elements), emit the rest period
`[last landing on currentDay.date + 15 min, first takeoff on nextDay.date
+ 45 min]` with its duration in hours and the `>= 36` compliance flag;
otherwise emit nothing. -/
def pairRest (currentDay nextDay : DailyDay) : List RestPeriod :=
  match currentDay.sectors.getLast?, nextDay.sectors.head? with
  | some lastSector, some firstSector =>
    let restStart := (jsTimeParse lastSector.landingTime).map
      (fun m => (currentDay.date : ℚ) * 1440 + m + 15)
    let restEnd := (jsTimeParse firstSector.takeoffTime).map
      (fun m => (nextDay.date : ℚ) * 1440 + m + 45)
    let restHours :=
      match restEnd, restStart with
      | some e, some s => some ((e - s) / 60)
      | _, _ => none
    [{ start := restStart
       finish := restEnd
       hours := restHours
       isCompliant := jsGe restHours 36
       fromDate := currentDay.date
       toDate := nextDay.date }]
  | _, _ => []

/-- The rest-period loop of `getPilotRestCompliance`: one (optional) rest
period per adjacent pair of the day list, in order. -/
def restPeriods : List DailyDay → List RestPeriod
  | [] => []
  | [_] => []
  | d1 :: d2 :: rest => pairRest d1 d2 ++ restPeriods (d2 :: rest)

/-- The "recent" rest-period view: the day list is first filtered to days
with `new Date(day.date) >= sevenDaysAgo`, then the same pairwise loop runs
on the filtered list. -/
def recentRestPeriods (days : List DailyDay) (sevenDaysAgo : ℚ) : List RestPeriod :=
  restPeriods (days.filter (fun d => decide (sevenDaysAgo ≤ (d.date : ℚ) * 1440)))

/-- Full-history rest periods of a pilot: the day summaries sorted into
chronological order, then the pairwise loop. -/
def getPilotRestCompliance_full (pilotName : String)
    (entries : List TechlogEntry) : List RestPeriod :=
  restPeriods (sortByDateAsc (getPilotDailyDetails pilotName entries))

/-- Recent (trailing seven days of `now`) rest periods of a pilot. -/
def getPilotRestCompliance_recent (pilotName : String)
    (entries : List TechlogEntry) (now : ℚ) : List RestPeriod :=
  recentRestPeriods (sortByDateAsc (getPilotDailyDetails pilotName entries))
    (now - 7 * 1440)

end Dashboard

/-!
## Sample data

Concrete sectors, entries and day summaries used by witness and
counterexample theorems.
-/

namespace Samples

/-- A one-hour morning sector returning to home base. -/
def sectorHome : Sector :=
  { id := "1", departure := "HTMW", arrival := "HTDA",
    takeoffTime := "10:00", landingTime := "11:00", flightTime := 1 }

/-- A one-hour morning sector away from home base. -/
def sectorAway : Sector :=
  { id := "2", departure := "HTDA", arrival := "HTMW",
    takeoffTime := "10:00", landingTime := "11:00", flightTime := 1 }

/-- A sector landing at noon, used as a rest-period left boundary. -/
def sectorNoon : Sector :=
  { id := "3", departure := "HTDA", arrival := "HTMW",
    takeoffTime := "09:00", landingTime := "12:00", flightTime := 3 }

/-- A late-evening sector taking off at 23:30, used as a rest-period right
boundary (rest start 12:15 on day 0 to rest end 00:15 on day 2 is exactly
36 hours). -/
def sectorLate : Sector :=
  { id := "4", departure := "HTMW", arrival := "HTDA",
    takeoffTime := "23:30", landingTime := "23:59", flightTime := 1 }

/-- Day 0, ending with a noon landing. -/
def dayNoon : Dashboard.DailyDay :=
  { date := 0, entries := [], sectors := [sectorNoon],
    totalFlightTime := 3, isOvernight := true }

/-- Day 1, starting with a 23:30 takeoff. -/
def dayLate : Dashboard.DailyDay :=
  { date := 1, entries := [], sectors := [sectorLate],
    totalFlightTime := 1, isOvernight := false }

/-- An old duty day (day 0), outside every seven-day window used below. -/
def dayOld : Dashboard.DailyDay :=
  { date := 0, entries := [], sectors := [sectorHome],
    totalFlightTime := 1, isOvernight := false }

/-- A recent duty day (day 5). -/
def dayRecent : Dashboard.DailyDay :=
  { date := 5, entries := [], sectors := [sectorHome],
    totalFlightTime := 1, isOvernight := false }

/-- A techlog entry on day 0 for pilot `"A"` with two sectors. -/
def entryDay0 : TechlogEntry :=
  { id := "e0", techlogNumber := "TL-0", date := 0,
    aircraftRegistration := "N1", pilotName := "A", coPilotName := none,
    sectors := [sectorAway, sectorHome], createdAt := 0 }

/-- A second techlog entry on day 0 for pilot `"A"` with one sector. -/
def entryDay0b : TechlogEntry :=
  { id := "e0b", techlogNumber := "TL-0b", date := 0,
    aircraftRegistration := "N1", pilotName := "B", coPilotName := some "A",
    sectors := [sectorAway], createdAt := 0 }

/-- A techlog entry on day 2 for pilot `"A"` with one sector. -/
def entryDay2 : TechlogEntry :=
  { id := "e2", techlogNumber := "TL-2", date := 2,
    aircraftRegistration := "N1", pilotName := "A", coPilotName := none,
    sectors := [sectorAway], createdAt := 0 }

/-- The day summary the grouper produces for pilot `"A"` from
`[entryDay0]`. -/
def day0Details : Dashboard.DailyDay :=
  { date := 0, entries := [entryDay0],
    sectors := [sectorAway, sectorHome],
    totalFlightTime := 2, isOvernight := false }

/-- The day summary the grouper produces for pilot `"A"` from the two
same-date entries `[entryDay0, entryDay0b]` (the second via co-pilot):
sectors concatenated in entry-then-sector order. -/
def day0Both : Dashboard.DailyDay :=
  { date := 0, entries := [entryDay0, entryDay0b],
    sectors := [sectorAway, sectorHome, sectorAway],
    totalFlightTime := 3, isOvernight := true }

end Samples

/-!
## Supporting lemmas
-/

/-- A parsed time-of-day lies in `[0, 1439]` minutes. -/
theorem parseTimeOfDay_bounds {s : String} {q : ℚ}
    (h : parseTimeOfDay s = some q) : 0 ≤ q ∧ q ≤ 1439 := by
  unfold parseTimeOfDay at h
  split at h
  · split at h
    · split at h
      · rename_i h1 h2 c m1 m2 hshape hdig hle
        simp only [Option.some.injEq] at h
        subst h
        refine ⟨by positivity, ?_⟩
        have hb : (digitVal h1 * 10 + digitVal h2) * 60 +
            (digitVal m1 * 10 + digitVal m2) ≤ 1439 := by
          simp only [Bool.and_eq_true, decide_eq_true_eq] at hle
          omega
        calc (((digitVal h1 * 10 + digitVal h2) * 60 +
              (digitVal m1 * 10 + digitVal m2) : ℕ) : ℚ)
            ≤ ((1439 : ℕ) : ℚ) := by exact_mod_cast hb
          _ = 1439 := by norm_num
      · exact absurd h (by simp)
    · exact absurd h (by simp)
  · exact absurd h (by simp)

/-- The empty string does not parse. -/
theorem parseTimeOfDay_empty : parseTimeOfDay "" = none := rfl

/-- A digit character denotes a value of at most 9. -/
theorem digitVal_le_of_isDigit {c : Char} (h : c.isDigit = true) :
    digitVal c ≤ 9 := by
  unfold Char.isDigit at h
  simp only [Bool.and_eq_true, decide_eq_true_eq] at h
  have h57 : c.val.toNat ≤ 57 := UInt32.toNat_le_of_le (by norm_num) h.2
  unfold digitVal Char.toNat
  omega

/-- Fraction milliseconds are nonnegative. -/
theorem fracDigitsMs_nonneg (l : List Char) : 0 ≤ fracDigitsMs l := by
  unfold fracDigitsMs
  split <;> positivity

/-- Fraction milliseconds of digit characters are below one second. -/
theorem fracDigitsMs_le : ∀ (l : List Char),
    l.all Char.isDigit = true → fracDigitsMs l ≤ 999 := by
  intro l hall
  have hd : ∀ c ∈ l, digitVal c ≤ 9 := fun c hc =>
    digitVal_le_of_isDigit (List.all_eq_true.mp hall c hc)
  match l with
  | [] =>
    norm_num [fracDigitsMs]
  | [d1] =>
    have h1 := hd d1 (by simp)
    simp only [fracDigitsMs]
    calc ((digitVal d1 * 100 : ℕ) : ℚ) ≤ ((999 : ℕ) : ℚ) := by
          exact_mod_cast (by omega : digitVal d1 * 100 ≤ 999)
      _ = 999 := by norm_num
  | [d1, d2] =>
    have h1 := hd d1 (by simp)
    have h2 := hd d2 (by simp)
    simp only [fracDigitsMs]
    calc ((digitVal d1 * 100 + digitVal d2 * 10 : ℕ) : ℚ)
        ≤ ((999 : ℕ) : ℚ) := by
          exact_mod_cast (by omega : digitVal d1 * 100 + digitVal d2 * 10 ≤ 999)
      _ = 999 := by norm_num
  | d1 :: d2 :: d3 :: rest =>
    have h1 := hd d1 (by simp)
    have h2 := hd d2 (by simp)
    have h3 := hd d3 (by simp)
    simp only [fracDigitsMs]
    calc ((digitVal d1 * 100 + digitVal d2 * 10 + digitVal d3 : ℕ) : ℚ)
        ≤ ((999 : ℕ) : ℚ) := by
          exact_mod_cast (by omega :
            digitVal d1 * 100 + digitVal d2 * 10 + digitVal d3 ≤ 999)
      _ = 999 := by norm_num

/-- A range-checked time value lies in `[0, 1440]` minutes (1440 arises
only from the end-of-day hour 24). -/
theorem mkTimeMinutes_bounds {hh mm ss : ℕ} {ms q : ℚ}
    (hms0 : 0 ≤ ms) (hms : ms ≤ 999)
    (h : mkTimeMinutes hh mm ss ms = some q) : 0 ≤ q ∧ q ≤ 1440 := by
  unfold mkTimeMinutes at h
  split at h
  · rename_i hcond
    obtain ⟨hmm, hss, hh24⟩ := hcond
    simp only [Option.some.injEq] at h
    subst h
    have c1 : (0 : ℚ) ≤ ((hh * 60 + mm : ℕ) : ℚ) := Nat.cast_nonneg _
    have c2 : (0 : ℚ) ≤ ((ss : ℕ) : ℚ) / 60 :=
      div_nonneg (Nat.cast_nonneg _) (by norm_num)
    have c3 : (0 : ℚ) ≤ ms / 60000 := div_nonneg hms0 (by norm_num)
    refine ⟨by linarith, ?_⟩
    rcases hh24 with hh23 | ⟨hh24, hmm0, hss0, hms0'⟩
    · have b1 : ((hh * 60 + mm : ℕ) : ℚ) ≤ 1439 := by
        exact_mod_cast (by omega : hh * 60 + mm ≤ 1439)
      have b2 : ((ss : ℕ) : ℚ) ≤ 59 := by exact_mod_cast hss
      have b2' : ((ss : ℕ) : ℚ) / 60 ≤ 59 / 60 := by linarith
      have b3 : ms / 60000 ≤ 999 / 60000 := by linarith
      linarith
    · subst hh24 hmm0 hss0
      rw [hms0']
      norm_num
  · exact absurd h (by simp)

/-- A JS-parsed time-of-day lies in `[0, 1440]` minutes. -/
theorem jsTimeParse_bounds {s : String} {q : ℚ}
    (h : jsTimeParse s = some q) : 0 ≤ q ∧ q ≤ 1440 := by
  unfold jsTimeParse at h
  split at h
  · split at h
    · exact mkTimeMinutes_bounds le_rfl (by norm_num) h
    · exact absurd h (by simp)
  · split at h
    · exact mkTimeMinutes_bounds le_rfl (by norm_num) h
    · exact absurd h (by simp)
  · split at h
    · rename_i hguard
      simp only [Bool.and_eq_true] at hguard
      exact mkTimeMinutes_bounds (fracDigitsMs_nonneg _)
        (fracDigitsMs_le _ hguard.2) h
    · exact absurd h (by simp)
  · exact absurd h (by simp)

/-- The canonical `"HH:MM"` parse is a restriction of the JS parse: where
it succeeds, the JS parse succeeds with the same value. -/
theorem jsTimeParse_of_parseTimeOfDay {s : String} {q : ℚ}
    (h : parseTimeOfDay s = some q) : jsTimeParse s = some q := by
  unfold parseTimeOfDay at h
  unfold jsTimeParse
  split at h
  · rename_i h1 h2 c m1 m2 heq
    rw [heq]
    split at h
    · rename_i hdig
      split at h
      · rename_i hle
        simp only [Option.some.injEq] at h
        subst h
        simp only [Bool.and_eq_true, decide_eq_true_eq] at hle
        dsimp only
        rw [if_pos hdig]
        unfold mkTimeMinutes
        rw [if_pos ⟨hle.2, by norm_num, Or.inl hle.1⟩]
        norm_num
      · exact absurd h (by simp)
    · exact absurd h (by simp)
  · exact absurd h (by simp)

/-- Pointwise lift of `jsTimeParse_of_parseTimeOfDay` to mapped lists. -/
theorem map_js_of_map_parse {α : Type} (f : α → String) :
    ∀ (l : List α) (vs : List ℚ),
      l.map (fun x => parseTimeOfDay (f x)) = vs.map some →
      l.map (fun x => jsTimeParse (f x)) = vs.map some := by
  intro l
  induction l with
  | nil =>
    intro vs h
    cases vs with
    | nil => rfl
    | cons v vt => simp at h
  | cons x tl ih =>
    intro vs h
    cases vs with
    | nil => simp at h
    | cons v vt =>
      simp only [List.map_cons, List.cons.injEq] at h ⊢
      exact ⟨jsTimeParse_of_parseTimeOfDay h.1, ih vt h.2⟩

/-- Sequencing a list of defined values succeeds. -/
theorem seqOption_map_some (l : List ℚ) : seqOption (l.map some) = some l := by
  induction l with
  | nil => rfl
  | cons x tl ih => simp [seqOption, ih]

/-- A successful sequencing means every input was defined. -/
theorem seqOption_eq_some {os : List (Option ℚ)} {vs : List ℚ}
    (h : seqOption os = some vs) : os = vs.map some := by
  induction os generalizing vs with
  | nil =>
    simp only [seqOption, Option.some.injEq] at h
    simp [← h]
  | cons x tl ih =>
    cases x with
    | none => simp [seqOption] at h
    | some v =>
      simp only [seqOption, Option.map_eq_some'] at h
      obtain ⟨ws, hws, hv⟩ := h
      subst hv
      simp [ih hws]

/-- A common lower bound survives a `min`-fold. -/
theorem foldl_min_ge {b : ℚ} :
    ∀ (tl : List ℚ) (x : ℚ), b ≤ x → (∀ y ∈ tl, b ≤ y) →
      b ≤ List.foldl min x tl := by
  intro tl
  induction tl with
  | nil => intro x hx _; simpa using hx
  | cons y tl ih =>
    intro x hx hall
    simp only [List.foldl_cons]
    exact ih (min x y) (le_min hx (hall y (by simp)))
      (fun z hz => hall z (by simp [hz]))

/-- A common upper bound survives a `max`-fold. -/
theorem foldl_max_le {b : ℚ} :
    ∀ (tl : List ℚ) (x : ℚ), x ≤ b → (∀ y ∈ tl, y ≤ b) →
      List.foldl max x tl ≤ b := by
  intro tl
  induction tl with
  | nil => intro x hx _; simpa using hx
  | cons y tl ih =>
    intro x hx hall
    simp only [List.foldl_cons]
    exact ih (max x y) (max_le hx (hall y (by simp)))
      (fun z hz => hall z (by simp [hz]))

/-- A lower bound on `listMin` of a non-empty list. -/
theorem listMin_ge {l : List ℚ} {b : ℚ}
    (hb : ∀ x ∈ l, b ≤ x) (hne : l ≠ []) : b ≤ listMin l := by
  match l with
  | x :: tl =>
    simp only [listMin]
    exact foldl_min_ge tl x (hb x (by simp)) (fun y hy => hb y (by simp [hy]))

/-- An upper bound on `listMax` of a non-empty list. -/
theorem listMax_le {l : List ℚ} {b : ℚ}
    (hb : ∀ x ∈ l, x ≤ b) (hne : l ≠ []) : listMax l ≤ b := by
  match l with
  | x :: tl =>
    simp only [listMax]
    exact foldl_max_le tl x (hb x (by simp)) (fun y hy => hb y (by simp [hy]))

/-- `jsGt` is strict comparison on defined values and `false` on `NaN`. -/
theorem jsGt_eq_true_iff (x : Option ℚ) (l : ℚ) :
    jsGt x l = true ↔ ∃ v, x = some v ∧ l < v := by
  cases x <;> simp [jsGt]

/-- Summing a nonnegative field over a filtered list is monotone in the
filter predicate. -/
theorem sum_filter_mono {α : Type} (l : List α) (f : α → ℚ)
    (hf : ∀ x ∈ l, 0 ≤ f x) (p q : α → Bool)
    (hpq : ∀ x, p x = true → q x = true) :
    ((l.filter p).map f).sum ≤ ((l.filter q).map f).sum := by
  induction l with
  | nil => simp
  | cons x tl ih =>
    have hf' : ∀ y ∈ tl, 0 ≤ f y := fun y hy => hf y (by simp [hy])
    have h0 : 0 ≤ f x := hf x (by simp)
    have ihtl := ih hf'
    by_cases hp : p x = true
    · rw [List.filter_cons_of_pos hp, List.filter_cons_of_pos (hpq x hp)]
      simpa using ihtl
    · rw [List.filter_cons_of_neg (by simpa using hp)]
      by_cases hq : q x = true
      · rw [List.filter_cons_of_pos hq]
        simp only [List.map_cons, List.sum_cons]
        linarith
      · rw [List.filter_cons_of_neg (by simpa using hq)]
        exact ihtl

/-- `insertDesc` inserts: the result is a permutation of consing. -/
theorem insertDesc_perm (d : Dashboard.DailyDay) (l : List Dashboard.DailyDay) :
    (Dashboard.insertDesc d l).Perm (d :: l) := by
  induction l with
  | nil => rfl
  | cons x tl ih =>
    simp only [Dashboard.insertDesc]
    by_cases hx : x.date ≤ d.date
    · rw [if_pos hx]
    · rw [if_neg hx]
      exact (ih.cons x).trans (List.Perm.swap d x tl)

/-- The descending sort permutes its input. -/
theorem sortByDateDesc_perm (l : List Dashboard.DailyDay) :
    (Dashboard.sortByDateDesc l).Perm l := by
  induction l with
  | nil => rfl
  | cons d tl ih =>
    simp only [Dashboard.sortByDateDesc]
    exact (insertDesc_perm d (Dashboard.sortByDateDesc tl)).trans (ih.cons d)

/-- `insertDesc` preserves the nonincreasing-by-date invariant. -/
theorem insertDesc_pairwise {d : Dashboard.DailyDay} {l : List Dashboard.DailyDay}
    (h : l.Pairwise (fun a b => b.date ≤ a.date)) :
    (Dashboard.insertDesc d l).Pairwise (fun a b => b.date ≤ a.date) := by
  induction l with
  | nil => simp [Dashboard.insertDesc]
  | cons x tl ih =>
    simp only [Dashboard.insertDesc]
    have h' := List.pairwise_cons.mp h
    by_cases hx : x.date ≤ d.date
    · rw [if_pos hx]
      refine List.Pairwise.cons ?_ h
      intro y hy
      rcases List.mem_cons.mp hy with rfl | hy
      · exact hx
      · exact le_trans (h'.1 y hy) hx
    · rw [if_neg hx]
      refine List.Pairwise.cons ?_ (ih h'.2)
      intro y hy
      have hy' := (insertDesc_perm d tl).mem_iff.mp hy
      rcases List.mem_cons.mp hy' with rfl | hy'
      · exact le_of_not_le hx
      · exact h'.1 y hy'

/-- The descending sort yields a nonincreasing-by-date list. -/
theorem sortByDateDesc_pairwise (l : List Dashboard.DailyDay) :
    (Dashboard.sortByDateDesc l).Pairwise (fun a b => b.date ≤ a.date) := by
  induction l with
  | nil => simp [Dashboard.sortByDateDesc]
  | cons d tl ih =>
    simp only [Dashboard.sortByDateDesc]
    exact insertDesc_pairwise ih

/-- Membership is preserved by first-occurrence deduplication. -/
theorem mem_dedupFirst {x : Int} : ∀ {l : List Int},
    x ∈ Dashboard.dedupFirst l ↔ x ∈ l := by
  intro l
  induction l using Dashboard.dedupFirst.induct with
  | case1 => simp [Dashboard.dedupFirst]
  | case2 d tl ih =>
    simp only [Dashboard.dedupFirst, List.mem_cons, ih, List.mem_filter,
      bne_iff_ne, ne_eq, decide_eq_true_eq]
    constructor
    · rintro (rfl | ⟨hx, _⟩)
      · exact Or.inl rfl
      · exact Or.inr hx
    · rintro (rfl | hx)
      · exact Or.inl rfl
      · by_cases hxd : x = d
        · exact Or.inl hxd
        · exact Or.inr ⟨hx, hxd⟩

/-- First-occurrence deduplication yields distinct keys. -/
theorem nodup_dedupFirst : ∀ (l : List Int), (Dashboard.dedupFirst l).Nodup := by
  intro l
  induction l using Dashboard.dedupFirst.induct with
  | case1 => simp [Dashboard.dedupFirst]
  | case2 d tl ih =>
    simp only [Dashboard.dedupFirst, List.nodup_cons]
    refine ⟨?_, ih⟩
    intro hmem
    have := (mem_dedupFirst.mp hmem)
    simp [List.mem_filter] at this

/-- Rest periods of a list survive prepending one day. -/
theorem mem_restPeriods_cons {p : Dashboard.RestPeriod}
    {l : List Dashboard.DailyDay} (x : Dashboard.DailyDay)
    (h : p ∈ Dashboard.restPeriods l) : p ∈ Dashboard.restPeriods (x :: l) := by
  match l with
  | [] => simp [Dashboard.restPeriods] at h
  | y :: tl =>
    simp only [Dashboard.restPeriods, List.mem_append]
    exact Or.inr h

/-- Rest periods of a list survive prepending any prefix. -/
theorem mem_restPeriods_append (pre : List Dashboard.DailyDay)
    {p : Dashboard.RestPeriod} {l : List Dashboard.DailyDay}
    (h : p ∈ Dashboard.restPeriods l) :
    p ∈ Dashboard.restPeriods (pre ++ l) := by
  induction pre with
  | nil => simpa using h
  | cons x tl ih => exact mem_restPeriods_cons x ih

/-- Any rest period emitted for a pair starts on the first day's date. -/
theorem pairRest_fromDate (d1 d2 : Dashboard.DailyDay)
    (q : Dashboard.RestPeriod) (hq : q ∈ Dashboard.pairRest d1 d2) :
    q.fromDate = d1.date := by
  unfold Dashboard.pairRest at hq
  split at hq
  · simp only [List.mem_singleton] at hq
    subst hq
    rfl
  · simp at hq

/-- Every rest period's `fromDate` is the date of some day of the input. -/
theorem restPeriods_fromDate_mem :
    ∀ (l : List Dashboard.DailyDay) (q : Dashboard.RestPeriod),
      q ∈ Dashboard.restPeriods l → ∃ d ∈ l, q.fromDate = d.date := by
  intro l
  induction l with
  | nil =>
    intro q hq
    simp [Dashboard.restPeriods] at hq
  | cons d tl ih =>
    intro q hq
    cases tl with
    | nil => simp [Dashboard.restPeriods] at hq
    | cons y tl2 =>
      simp only [Dashboard.restPeriods, List.mem_append] at hq
      rcases hq with hq | hq
      · exact ⟨d, by simp, pairRest_fromDate d y q hq⟩
      · obtain ⟨x, hx, hfd⟩ := ih q hq
        exact ⟨x, by simp [hx], hfd⟩

/-!
## Claim theorems
-/

/-- C3: for a non-empty sector list whose time-of-day strings all parse
(takeoffs to `ts`, landings to `ls`, position by position), the computed
duty time is `max 0 ((latest landing + 15 min) − (earliest takeoff +
45 min))` in fractional hours; for the empty sector list it is `0`, and in
both cases a value (never an error/`NaN`) is returned. -/
theorem dutyTime_formula (sectors : List Sector) (ts ls : List ℚ)
    (hne : sectors ≠ [])
    (hts : sectors.map (fun s => parseTimeOfDay s.takeoffTime) = ts.map some)
    (hls : sectors.map (fun s => parseTimeOfDay s.landingTime) = ls.map some) :
    Calculations.calculateDutyTime sectors
      = some (max 0 (((listMax ls + 15) - (listMin ts + 45)) / 60))
    ∧ Calculations.calculateDutyTime [] = some 0 := by
  refine ⟨?_, rfl⟩
  unfold Calculations.calculateDutyTime
  rw [if_neg (by simpa using hne)]
  rw [map_js_of_map_parse _ sectors ts hts, map_js_of_map_parse _ sectors ls hls,
    seqOption_map_some, seqOption_map_some]

/-- C3 witness: a single 10:00–11:00 sector has duty time
`max 0 ((660 + 15) − (600 + 45)) / 60` = half an hour, and the empty list
has duty time `0`. -/
theorem dutyTime_formula_witness :
    Calculations.calculateDutyTime [Samples.sectorHome]
      = some (max 0 (((listMax [660] + 15) - (listMin [600] + 45)) / 60))
    ∧ Calculations.calculateDutyTime [] = some 0 :=
  dutyTime_formula [Samples.sectorHome] [600] [660] (by decide) (by decide)
    (by decide)

/-- C10: whenever `calculateDutyTime` returns a value, that value is
strictly below 24 hours: all times are placed on the single reference day
`2000-01-01` with no overnight wrap, so the duty interval is at most
`(23:59 + 15 min) − (00:00 + 45 min)`. -/
theorem dutyTime_lt_24 (sectors : List Sector) (v : ℚ)
    (h : Calculations.calculateDutyTime sectors = some v) : v < 24 := by
  unfold Calculations.calculateDutyTime at h
  split at h
  · simp only [Option.some.injEq] at h
    subst h
    norm_num
  · rename_i hne
    split at h
    · rename_i ts ls hseqt hseql
      simp only [Option.some.injEq] at h
      subst h
      have hts := seqOption_eq_some hseqt
      have hls := seqOption_eq_some hseql
      have hlsne : ls ≠ [] := by
        intro hnil
        subst hnil
        simp only [List.map_nil, List.map_eq_nil_iff] at hls
        simp [hls] at hne
      have htsne : ts ≠ [] := by
        intro hnil
        subst hnil
        simp only [List.map_nil, List.map_eq_nil_iff] at hts
        simp [hts] at hne
      have hmax : listMax ls ≤ 1440 := by
        refine listMax_le (fun x hx => ?_) hlsne
        have : some x ∈ sectors.map (fun s => jsTimeParse s.landingTime) := by
          rw [hls]
          exact List.mem_map_of_mem some hx
        obtain ⟨s, _, hs⟩ := List.mem_map.mp this
        exact (jsTimeParse_bounds hs).2
      have hmin : 0 ≤ listMin ts := by
        refine listMin_ge (fun x hx => ?_) htsne
        have : some x ∈ sectors.map (fun s => jsTimeParse s.takeoffTime) := by
          rw [hts]
          exact List.mem_map_of_mem some hx
        obtain ⟨s, _, hs⟩ := List.mem_map.mp this
        exact (jsTimeParse_bounds hs).1
      have hlt : ((listMax ls + 15) - (listMin ts + 45)) / 60 < 24 := by
        nlinarith
      exact max_lt (by norm_num) hlt
    · exact absurd h (by simp)

/-- C10 witness: the empty sector list has duty time `0`, which is below
24 hours. -/
theorem dutyTime_lt_24_witness :
    Calculations.calculateDutyTime [] = some 0 ∧ (0 : ℚ) < 24 :=
  ⟨rfl, dutyTime_lt_24 [] 0 rfl⟩

/-- C4: every exceedance flag of `calculatePilotStats` is `true` exactly
when its windowed total is strictly greater than the fixed limit (flight
time 34/100/1000 h over 7/28/365 days, duty time 55/190/1800 h over
7/28/365 days, 10 sectors over 24 h); a total exactly equal to the limit
is not an exceedance. -/
theorem exceedance_strict (pilotName : String) (entries : List TechlogEntry)
    (now : ℚ) :
    ((Calculations.calculatePilotStats pilotName entries now).exceedances.flightTime7Days = true
      ↔ 34 < (Calculations.calculatePilotStats pilotName entries now).flightTime7Days)
    ∧ ((Calculations.calculatePilotStats pilotName entries now).exceedances.flightTime28Days = true
      ↔ 100 < (Calculations.calculatePilotStats pilotName entries now).flightTime28Days)
    ∧ ((Calculations.calculatePilotStats pilotName entries now).exceedances.flightTime365Days = true
      ↔ 1000 < (Calculations.calculatePilotStats pilotName entries now).flightTime365Days)
    ∧ ((Calculations.calculatePilotStats pilotName entries now).exceedances.dutyTime7Days = true
      ↔ ∃ v, (Calculations.calculatePilotStats pilotName entries now).dutyTime7Days = some v ∧ 55 < v)
    ∧ ((Calculations.calculatePilotStats pilotName entries now).exceedances.dutyTime28Days = true
      ↔ ∃ v, (Calculations.calculatePilotStats pilotName entries now).dutyTime28Days = some v ∧ 190 < v)
    ∧ ((Calculations.calculatePilotStats pilotName entries now).exceedances.dutyTime365Days = true
      ↔ ∃ v, (Calculations.calculatePilotStats pilotName entries now).dutyTime365Days = some v ∧ 1800 < v)
    ∧ ((Calculations.calculatePilotStats pilotName entries now).exceedances.sectors24Hours = true
      ↔ 10 < Calculations.sectors24Hours pilotName entries now) := by
  unfold Calculations.calculatePilotStats
  simp only [Calculations.FLIGHT_TIME_LIMITS.MAX_HOURS_7D,
    Calculations.FLIGHT_TIME_LIMITS.MAX_HOURS_28D,
    Calculations.FLIGHT_TIME_LIMITS.MAX_HOURS_365D,
    Calculations.FLIGHT_TIME_LIMITS.MAX_SECTORS_24H,
    Calculations.DUTY_TIME_LIMITS.MAX_HOURS_7D,
    Calculations.DUTY_TIME_LIMITS.MAX_HOURS_28D,
    Calculations.DUTY_TIME_LIMITS.MAX_HOURS_365D,
    decide_eq_true_eq, jsGt_eq_true_iff]
  tauto

/-- C6: when both time-of-day strings parse and the landing time-of-day is
numerically less than the takeoff time-of-day, 24 hours are added to the
landing before subtracting, so the computed flight time is the positive
wrapped duration `(landing + 1440 − takeoff) / 60` hours. -/
theorem overnight_wrap (takeoffTime landingTime : String) (t l : ℚ)
    (ht : parseTimeOfDay takeoffTime = some t)
    (hl : parseTimeOfDay landingTime = some l)
    (hwrap : l < t) :
    TechlogForm.calculateFlightTime takeoffTime landingTime
      = some ((l + 1440 - t) / 60)
    ∧ 0 < (l + 1440 - t) / 60 := by
  have hne1 : takeoffTime ≠ "" := by
    rintro rfl
    rw [parseTimeOfDay_empty] at ht
    cases ht
  have hne2 : landingTime ≠ "" := by
    rintro rfl
    rw [parseTimeOfDay_empty] at hl
    cases hl
  constructor
  · unfold TechlogForm.calculateFlightTime
    rw [if_neg (by tauto), jsTimeParse_of_parseTimeOfDay ht,
      jsTimeParse_of_parseTimeOfDay hl]
    simp [hwrap]
  · have hb1 := parseTimeOfDay_bounds ht
    have hb2 := parseTimeOfDay_bounds hl
    have hpos : 0 < l + 1440 - t := by linarith [hb1.2, hb2.1]
    positivity

/-- C6 witness: takeoff 23:30 with landing 00:15 yields flight time
`0.75` hours, not a negative value. -/
theorem overnight_wrap_witness :
    TechlogForm.calculateFlightTime "23:30" "00:15" = some (3 / 4)
    ∧ (0 : ℚ) < 3 / 4 := by
  have h := overnight_wrap "23:30" "00:15" 1410 15 (by decide) (by decide)
    (by norm_num)
  refine ⟨?_, by norm_num⟩
  rw [h.1]
  norm_num

/-- C7: with every stored sector flight time nonnegative, the windowed
flight-time totals of a pilot are monotone in the window length for the
same evaluation instant: `flightTime(7d) ≤ flightTime(28d) ≤
flightTime(365d)`. -/
theorem window_monotone (pilotName : String) (entries : List TechlogEntry)
    (now : ℚ)
    (hpos : ∀ e ∈ entries, ∀ s ∈ e.sectors, 0 ≤ s.flightTime) :
    (Calculations.calculatePilotStats pilotName entries now).flightTime7Days ≤
      (Calculations.calculatePilotStats pilotName entries now).flightTime28Days
    ∧ (Calculations.calculatePilotStats pilotName entries now).flightTime28Days ≤
      (Calculations.calculatePilotStats pilotName entries now).flightTime365Days := by
  have hent : ∀ e ∈ entries.filter (pilotMatches pilotName),
      0 ≤ Calculations.calculateFlightTime e.sectors := by
    intro e he
    unfold Calculations.calculateFlightTime
    apply List.sum_nonneg
    intro q hq
    obtain ⟨s, hs, rfl⟩ := List.mem_map.mp hq
    exact hpos e (List.mem_of_mem_filter he) s hs
  simp only [Calculations.calculatePilotStats, Calculations.getEntriesInDateRange]
  constructor
  · refine sum_filter_mono _ _ hent _ _ ?_
    intro e he
    simp only [decide_eq_true_eq] at he ⊢
    exact ⟨by linarith [he.1], he.2⟩
  · refine sum_filter_mono _ _ hent _ _ ?_
    intro e he
    simp only [decide_eq_true_eq] at he ⊢
    exact ⟨by linarith [he.1], he.2⟩

/-- C7 witness: monotonicity at a concrete pilot, entry set and instant. -/
theorem window_monotone_witness :
    (Calculations.calculatePilotStats "A" [Samples.entryDay0] 1440).flightTime7Days ≤
      (Calculations.calculatePilotStats "A" [Samples.entryDay0] 1440).flightTime28Days
    ∧ (Calculations.calculatePilotStats "A" [Samples.entryDay0] 1440).flightTime28Days ≤
      (Calculations.calculatePilotStats "A" [Samples.entryDay0] 1440).flightTime365Days :=
  window_monotone "A" [Samples.entryDay0] 1440 (by decide)

/-- C9: every daily duty summary produced by the grouper that has at least
one sector is flagged overnight exactly when its final sector's arrival
code differs from the fixed home base `"HTDA"`; the flag depends only on
that last sector's destination. -/
theorem overnight_iff (pilotName : String) (entries : List TechlogEntry)
    (day : Dashboard.DailyDay)
    (hmem : day ∈ Dashboard.getPilotDailyDetails pilotName entries)
    (hne : day.sectors ≠ []) :
    ∃ lastSector, day.sectors.getLast? = some lastSector
      ∧ (day.isOvernight = true ↔ lastSector.arrival ≠ "HTDA") := by
  have hmem' := (sortByDateDesc_perm _).mem_iff.mp
    (by simpa [Dashboard.getPilotDailyDetails] using hmem)
  obtain ⟨dt, _, rfl⟩ := List.mem_map.mp hmem'
  obtain ⟨lastSector, hls⟩ :=
    Option.isSome_iff_exists.mp (List.getLast?_isSome.mpr (by simpa using hne))
  refine ⟨lastSector, by simpa [Dashboard.mkDailyDay] using hls, ?_⟩
  simp only [Dashboard.mkDailyDay] at hls ⊢
  rw [hls]
  simp [bne_iff_ne]

/-- C9 witness: pilot `"A"`'s day 0 ends at home base `"HTDA"`, so the
overnight flag is `false`. -/
theorem overnight_iff_witness :
    ∃ lastSector,
      Samples.day0Details.sectors.getLast? = some lastSector
      ∧ (Samples.day0Details.isOvernight = true ↔ lastSector.arrival ≠ "HTDA") :=
  overnight_iff "A" [Samples.entryDay0] Samples.day0Details
    (by
      have : Dashboard.getPilotDailyDetails "A" [Samples.entryDay0]
          = [Samples.day0Details] := by
        simp [Dashboard.getPilotDailyDetails, Dashboard.sortByDateDesc,
          Dashboard.insertDesc, Dashboard.dedupFirst, Dashboard.mkDailyDay,
          Samples.entryDay0, Samples.day0Details, Samples.sectorAway,
          Samples.sectorHome, pilotMatches]
        norm_num
      rw [this]
      simp)
    (by decide)

/-- C8: the daily duty grouper selects exactly the entries where the pilot
is primary or co-pilot; it emits one group per distinct date (no duplicate
dates, and a date appears iff some matching entry has it); each group's
sector list is the concatenation of the sectors of all matching entries of
that date in entry-then-sector order, so its sector count is the sum of the
contributing entries' sector counts; and the output is ordered descending
by date. -/
theorem grouper_correct (pilotName : String) (entries : List TechlogEntry) :
    ((Dashboard.getPilotDailyDetails pilotName entries).map
      (fun d => d.date)).Nodup
    ∧ (∀ dt : Int,
      dt ∈ (Dashboard.getPilotDailyDetails pilotName entries).map (fun d => d.date)
        ↔ dt ∈ (entries.filter (pilotMatches pilotName)).map (fun e => e.date))
    ∧ (∀ day ∈ Dashboard.getPilotDailyDetails pilotName entries,
      day.sectors = ((entries.filter (pilotMatches pilotName)).filter
          (fun e => e.date == day.date)).flatMap (fun e => e.sectors)
      ∧ day.sectors.length = (((entries.filter (pilotMatches pilotName)).filter
          (fun e => e.date == day.date)).map (fun e => e.sectors.length)).sum)
    ∧ (Dashboard.getPilotDailyDetails pilotName entries).Pairwise
      (fun a b => b.date ≤ a.date) := by
  have hperm : (Dashboard.getPilotDailyDetails pilotName entries).Perm
      ((Dashboard.dedupFirst ((entries.filter (pilotMatches pilotName)).map
        (fun e => e.date))).map
        (fun dt => Dashboard.mkDailyDay dt
          ((entries.filter (pilotMatches pilotName)).filter
            (fun e => e.date == dt)))) := by
    simp only [Dashboard.getPilotDailyDetails]
    exact sortByDateDesc_perm _
  have hmapdate : ∀ (ks : List Int),
      (ks.map (fun dt => Dashboard.mkDailyDay dt
        ((entries.filter (pilotMatches pilotName)).filter
          (fun e => e.date == dt)))).map (fun d => d.date) = ks := by
    intro ks
    induction ks with
    | nil => rfl
    | cons k tl ih =>
      rw [List.map_cons, List.map_cons, ih]
      rfl
  refine ⟨?_, ?_, ?_, ?_⟩
  · rw [(hperm.map (fun d => d.date)).nodup_iff, hmapdate]
    exact nodup_dedupFirst _
  · intro dt
    rw [(hperm.map (fun d => d.date)).mem_iff, hmapdate]
    exact mem_dedupFirst
  · intro day hday
    have hday' := hperm.mem_iff.mp hday
    obtain ⟨dt, _, rfl⟩ := List.mem_map.mp hday'
    constructor
    · simp [Dashboard.mkDailyDay]
    · simp only [Dashboard.mkDailyDay, List.length_flatMap]
      rfl
  · simp only [Dashboard.getPilotDailyDetails]
    exact sortByDateDesc_pairwise _

/-- C8 witness: two same-date entries for pilot `"A"` (one as primary, one
as co-pilot) produce a single group whose sectors are concatenated in
entry-then-sector order and counted additively. -/
theorem grouper_correct_witness :
    Samples.day0Both.sectors
      = (([Samples.entryDay0, Samples.entryDay0b].filter (pilotMatches "A")).filter
        (fun e => e.date == Samples.day0Both.date)).flatMap (fun e => e.sectors)
    ∧ Samples.day0Both.sectors.length
      = ((([Samples.entryDay0, Samples.entryDay0b].filter (pilotMatches "A")).filter
        (fun e => e.date == Samples.day0Both.date)).map
          (fun e => e.sectors.length)).sum :=
  (grouper_correct "A" [Samples.entryDay0, Samples.entryDay0b]).2.2.1
    Samples.day0Both
    (by
      have : Dashboard.getPilotDailyDetails "A"
          [Samples.entryDay0, Samples.entryDay0b] = [Samples.day0Both] := by
        simp [Dashboard.getPilotDailyDetails, Dashboard.sortByDateDesc,
          Dashboard.insertDesc, Dashboard.dedupFirst, Dashboard.mkDailyDay,
          Samples.entryDay0, Samples.entryDay0b, Samples.day0Both,
          Samples.sectorAway, Samples.sectorHome, pilotMatches]
        norm_num
      rw [this]
      simp)

/-- C1: for any adjacent pair of daily duty summaries in the (ascending)
day list where both days have a boundary sector and the boundary times
parse, the evaluator emits a rest period whose start is the earlier day's
last landing instant plus 15 minutes, whose end is the later day's first
takeoff instant plus 45 minutes, whose duration is end minus start in
hours, and whose compliance flag is `true` exactly when that duration is at
least 36 hours (so exactly 36.0 is compliant and any value below 36, such
as 35.99, is not). -/
theorem rest_period_formula (pre : List Dashboard.DailyDay)
    (d1 d2 : Dashboard.DailyDay) (rest : List Dashboard.DailyDay)
    (lastSector firstSector : Sector) (lm fm : ℚ)
    (h1 : d1.sectors.getLast? = some lastSector)
    (h2 : d2.sectors.head? = some firstSector)
    (hlm : parseTimeOfDay lastSector.landingTime = some lm)
    (hfm : parseTimeOfDay firstSector.takeoffTime = some fm) :
    ∃ p ∈ Dashboard.restPeriods (pre ++ d1 :: d2 :: rest),
      p.start = some ((d1.date : ℚ) * 1440 + lm + 15)
      ∧ p.finish = some ((d2.date : ℚ) * 1440 + fm + 45)
      ∧ p.hours = some ((((d2.date : ℚ) * 1440 + fm + 45)
          - ((d1.date : ℚ) * 1440 + lm + 15)) / 60)
      ∧ (p.isCompliant = true ↔
          36 ≤ (((d2.date : ℚ) * 1440 + fm + 45)
            - ((d1.date : ℚ) * 1440 + lm + 15)) / 60) := by
  have hpair : Dashboard.pairRest d1 d2 =
      [{ start := some ((d1.date : ℚ) * 1440 + lm + 15)
         finish := some ((d2.date : ℚ) * 1440 + fm + 45)
         hours := some ((((d2.date : ℚ) * 1440 + fm + 45)
           - ((d1.date : ℚ) * 1440 + lm + 15)) / 60)
         isCompliant := jsGe (some ((((d2.date : ℚ) * 1440 + fm + 45)
           - ((d1.date : ℚ) * 1440 + lm + 15)) / 60)) 36
         fromDate := d1.date
         toDate := d2.date }] := by
    unfold Dashboard.pairRest
    rw [h1, h2]
    dsimp only
    rw [jsTimeParse_of_parseTimeOfDay hlm, jsTimeParse_of_parseTimeOfDay hfm]
    rfl
  refine ⟨{ start := some ((d1.date : ℚ) * 1440 + lm + 15)
            finish := some ((d2.date : ℚ) * 1440 + fm + 45)
            hours := some ((((d2.date : ℚ) * 1440 + fm + 45)
              - ((d1.date : ℚ) * 1440 + lm + 15)) / 60)
            isCompliant := jsGe (some ((((d2.date : ℚ) * 1440 + fm + 45)
              - ((d1.date : ℚ) * 1440 + lm + 15)) / 60)) 36
            fromDate := d1.date
            toDate := d2.date }, ?_, rfl, rfl, rfl, ?_⟩
  · apply mem_restPeriods_append pre
    have hsplit : Dashboard.restPeriods (d1 :: d2 :: rest)
        = Dashboard.pairRest d1 d2 ++ Dashboard.restPeriods (d2 :: rest) := rfl
    rw [hsplit, hpair]
    simp
  · simp [jsGe]

/-- C1 witness: day 0 lands at 12:00 and day 1 takes off at 23:30, so the
rest period runs from 12:15 on day 0 to 00:15 (plus buffer) on day 1 — a
duration of exactly 36.0 hours — and its compliance flag agrees with
`36 ≤ duration`. -/
theorem rest_period_formula_witness :
    ∃ p ∈ Dashboard.restPeriods
        ([] ++ Samples.dayNoon :: Samples.dayLate :: []),
      p.start = some ((Samples.dayNoon.date : ℚ) * 1440 + 720 + 15)
      ∧ p.finish = some ((Samples.dayLate.date : ℚ) * 1440 + 1410 + 45)
      ∧ p.hours = some ((((Samples.dayLate.date : ℚ) * 1440 + 1410 + 45)
          - ((Samples.dayNoon.date : ℚ) * 1440 + 720 + 15)) / 60)
      ∧ (p.isCompliant = true ↔
          36 ≤ (((Samples.dayLate.date : ℚ) * 1440 + 1410 + 45)
            - ((Samples.dayNoon.date : ℚ) * 1440 + 720 + 15)) / 60) :=
  rest_period_formula [] Samples.dayNoon Samples.dayLate []
    Samples.sectorNoon Samples.sectorLate 720 1410
    (by decide) (by decide) (by decide) (by decide)

/-- C2 counterexample: with an old day 0 and a recent day 5 (cutoff at day
3, i.e. minute 4320), the full history has one rest period whose later day
is inside the trailing window, but the recent view is empty — the recent
view is not the later-day-in-window restriction of the full history,
because the window filter removed the earlier day before pairing. -/
theorem recent_view_counterexample :
    Dashboard.recentRestPeriods [Samples.dayOld, Samples.dayRecent] 4320
      ≠ (Dashboard.restPeriods [Samples.dayOld, Samples.dayRecent]).filter
          (fun p => decide ((4320 : ℚ) ≤ (p.toDate : ℚ) * 1440)) := by
  have c1 : decide ((4320 : ℚ) ≤ (Samples.dayOld.date : ℚ) * 1440) = false :=
    decide_eq_false (by simp only [Samples.dayOld]; norm_num)
  have c2 : decide ((4320 : ℚ) ≤ (Samples.dayRecent.date : ℚ) * 1440) = true :=
    decide_eq_true (by simp only [Samples.dayRecent]; norm_num)
  have hL : Dashboard.recentRestPeriods [Samples.dayOld, Samples.dayRecent] 4320
      = [] := by
    unfold Dashboard.recentRestPeriods
    rw [List.filter_cons, List.filter_cons, List.filter_nil, c1, c2]
    rfl
  have hq : ∃ q, Dashboard.pairRest Samples.dayOld Samples.dayRecent = [q]
      ∧ q.toDate = 5 := by
    unfold Dashboard.pairRest
    exact ⟨_, rfl, rfl⟩
  obtain ⟨q, hq1, hq2⟩ := hq
  intro h
  rw [hL] at h
  have hrp : Dashboard.restPeriods [Samples.dayOld, Samples.dayRecent] = [q] := by
    have hsplit : Dashboard.restPeriods [Samples.dayOld, Samples.dayRecent]
        = Dashboard.pairRest Samples.dayOld Samples.dayRecent
          ++ Dashboard.restPeriods [Samples.dayRecent] := rfl
    rw [hsplit, hq1]
    rfl
  rw [hrp, List.filter_cons, List.filter_nil, hq2] at h
  have c3 : decide ((4320 : ℚ) ≤ ((5 : Int) : ℚ) * 1440) = true :=
    decide_eq_true (by norm_num)
  rw [c3] at h
  simp at h

/-- C2 amended: for a day list sorted ascending by date, the recent view
contains exactly those rest-period pairs of the full history whose
*earlier* day's date falls within the trailing window; membership of the
earlier day is what decides inclusion, so a pair whose earlier day precedes
the window is dropped even when its later day lies inside the window. -/
theorem recent_view_amended (days : List Dashboard.DailyDay) (cutoff : ℚ)
    (hsorted : days.Pairwise (fun a b => a.date ≤ b.date)) :
    Dashboard.recentRestPeriods days cutoff
      = (Dashboard.restPeriods days).filter
          (fun p => decide (cutoff ≤ (p.fromDate : ℚ) * 1440)) := by
  induction days with
  | nil => rfl
  | cons d tl ih =>
    have h' := List.pairwise_cons.mp hsorted
    by_cases hd : cutoff ≤ (d.date : ℚ) * 1440
    · have hall : ∀ x ∈ d :: tl, cutoff ≤ (x.date : ℚ) * 1440 := by
        intro x hx
        rcases List.mem_cons.mp hx with rfl | hx
        · exact hd
        · have hle : (d.date : ℚ) ≤ (x.date : ℚ) := by exact_mod_cast h'.1 x hx
          nlinarith
      have hfil1 : (d :: tl).filter
          (fun x => decide (cutoff ≤ (x.date : ℚ) * 1440)) = d :: tl :=
        List.filter_eq_self.mpr (fun x hx => decide_eq_true (hall x hx))
      have hfil2 : (Dashboard.restPeriods (d :: tl)).filter
          (fun p => decide (cutoff ≤ (p.fromDate : ℚ) * 1440))
          = Dashboard.restPeriods (d :: tl) :=
        List.filter_eq_self.mpr (fun q hq => by
          obtain ⟨x, hx, hfd⟩ := restPeriods_fromDate_mem _ q hq
          rw [hfd]
          exact decide_eq_true (hall x hx))
      unfold Dashboard.recentRestPeriods
      rw [hfil1, hfil2]
    · have hdec : decide (cutoff ≤ (d.date : ℚ) * 1440) = false :=
        decide_eq_false hd
      have hfil : (d :: tl).filter
          (fun x => decide (cutoff ≤ (x.date : ℚ) * 1440))
          = tl.filter (fun x => decide (cutoff ≤ (x.date : ℚ) * 1440)) := by
        rw [List.filter_cons, hdec]
        simp
      have ihtl := ih h'.2
      unfold Dashboard.recentRestPeriods at ihtl ⊢
      rw [hfil, ihtl]
      cases tl with
      | nil => rfl
      | cons y tl2 =>
        have hsplit : Dashboard.restPeriods (d :: y :: tl2)
            = Dashboard.pairRest d y ++ Dashboard.restPeriods (y :: tl2) := rfl
        rw [hsplit, List.filter_append]
        have hnil : (Dashboard.pairRest d y).filter
            (fun p => decide (cutoff ≤ (p.fromDate : ℚ) * 1440)) = [] := by
          rw [List.filter_eq_nil_iff]
          intro q hq
          rw [pairRest_fromDate d y q hq, hdec]
          simp
        rw [hnil, List.nil_append]

/-- C2 amended witness: on the sorted concrete day list of the
counterexample, the recent view equals the earlier-day-in-window
restriction of the full history. -/
theorem recent_view_amended_witness :
    Dashboard.recentRestPeriods [Samples.dayOld, Samples.dayRecent] 4320
      = (Dashboard.restPeriods [Samples.dayOld, Samples.dayRecent]).filter
          (fun p => decide ((4320 : ℚ) ≤ (p.fromDate : ℚ) * 1440)) :=
  recent_view_amended [Samples.dayOld, Samples.dayRecent] 4320 (by decide)

end CrewStatus
